import Mathlib

/-!
Shallow embedding of the `fp_std` library (modules `fp_std::function` and
`fp_std::tuple`) in pure value semantics: Rust references become values,
`Clone::clone` becomes the identity on values, and each combinator is the
pure function its body computes.
-/

namespace FpStd

/-- Pure value semantics of `Clone::clone`: an equal, independently owned
copy of the value. Used exactly where the source calls `.clone()`. -/
def clone {A : Type u} (a : A) : A := a

namespace function

/-- `fn always<A: Clone>(a: A) -> impl Fn() -> A { move || a.clone() }` -/
def always {A : Type u} (a : A) : Unit → A :=
  fun _ => clone a

/-- `fn flip<A, B, C, F: Fn(A, B) -> C>(f: F) -> impl Fn(B, A) -> C { move |a, b| f(b, a) }` -/
def flip {A : Type u} {B : Type v} {C : Type w} (f : A → B → C) : B → A → C :=
  fun a b => f b a

/-- `fn first_arg<A, B, C, F: Fn(A) -> C>(f: F) -> impl Fn(A, B) -> C { move |a, _| f(a) }` -/
def first_arg {A : Type u} {B : Type v} {C : Type w} (f : A → C) : A → B → C :=
  fun a _ => f a

/-- `fn second_arg<A, B, C, F: Fn(B) -> C>(f: F) -> impl Fn(A, B) -> C { move |_, b| f(b) }` -/
def second_arg {A : Type u} {B : Type v} {C : Type w} (f : B → C) : A → B → C :=
  fun _ b => f b

/-- `fn apply_first<F: Fn(A, B) -> C, A: Clone, B, C>(a: A, f: F) -> impl Fn(B) -> C { move |b| f(a.clone(), b) }` -/
def apply_first {A : Type u} {B : Type v} {C : Type w} (a : A) (f : A → B → C) : B → C :=
  fun b => f (clone a) b

/-- `fn apply_second<F: Fn(A, B) -> C, A, B: Clone, C>(b: B, f: F) -> impl Fn(A) -> C { move |a| f(a, b.clone()) }` -/
def apply_second {A : Type u} {B : Type v} {C : Type w} (b : B) (f : A → B → C) : A → C :=
  fun a => f a (clone b)

end function

namespace tuple

/-- `fn duplicate<A: Clone>(a: A) -> (A, A) { (a.clone(), a) }` -/
def duplicate {A : Type u} (a : A) : A × A :=
  (clone a, a)

/-- `fn cons<A, B>(a: A, b: B) -> (A, B) { (a, b) }` -/
def cons {A : Type u} {B : Type v} (a : A) (b : B) : A × B :=
  (a, b)

/-- `fn spread<A, B, C, F: Fn(A, B) -> C>(f: F) -> impl Fn((A, B)) -> C { move |(a, b)| f(a, b) }` -/
def spread {A : Type u} {B : Type v} {C : Type w} (f : A → B → C) : A × B → C :=
  fun (a, b) => f a b

/-- `fn first<A, B>((a, ..): (A, B)) -> A { a }` -/
def first {A : Type u} {B : Type v} : A × B → A :=
  fun (a, _) => a

/-- `fn second<A, B>((.., b): (A, B)) -> B { b }` -/
def second {A : Type u} {B : Type v} : A × B → B :=
  fun (_, b) => b

/-- `fn map_first<A, B, C, F: Fn(A) -> C>(f: F) -> impl Fn((A, B)) -> (C, B) { move |(a, b)| (f(a), b) }` -/
def map_first {A : Type u} {B : Type v} {C : Type w} (f : A → C) : A × B → C × B :=
  fun (a, b) => (f a, b)

/-- `fn map_second<A, B, C, F: Fn(B) -> C>(f: F) -> impl Fn((A, B)) -> (A, C) { move |(a, b)| (a, f(b)) }` -/
def map_second {A : Type u} {B : Type v} {C : Type w} (f : B → C) : A × B → A × C :=
  fun (a, b) => (a, f b)

/-- The external `fp_core::lens::Lens<Whole, Part>` capability interface:
`get(&Whole) -> Option<&Part>` and `set(Part, &Whole) -> Whole`, with
references modelled as values. -/
structure Lens (Whole : Type u) (Part : Type v) where
  get : Whole → Option Part
  set : Part → Whole → Whole

/-- `impl<A, B: Clone> Lens<(A, B), A> for LensFirst`:
`get((a, ..)) = Some(a)`; `set(a, (.., b)) = (a, b.clone())`. -/
def LensFirst (A : Type u) (B : Type v) : Lens (A × B) A where
  get := fun (a, _) => some a
  set := fun a (_, b) => (a, clone b)

/-- `impl<A: Clone, B> Lens<(A, B), B> for LensSecond`:
`get((.., b)) = Some(b)`; `set(b, (a, ..)) = (a.clone(), b)`. -/
def LensSecond (A : Type u) (B : Type v) : Lens (A × B) B where
  get := fun (_, b) => some b
  set := fun b (a, _) => (clone a, b)

end tuple

end FpStd

open FpStd FpStd.function FpStd.tuple

/-- C1: for every pair `(a, b)`, `LensFirst.get (a, b) = some a` (get always
succeeds) and `LensFirst.set c (a, b) = (c, b)`; symmetrically
`LensSecond.get (a, b) = some b` and `LensSecond.set d (a, b) = (a, d)`. -/
theorem claim_C1 {A : Type u} {B : Type v} (a : A) (b : B) (c : A) (d : B) :
    (LensFirst A B).get (a, b) = some a ∧
    (LensFirst A B).set c (a, b) = (c, b) ∧
    (LensSecond A B).get (a, b) = some b ∧
    (LensSecond A B).set d (a, b) = (a, d) :=
  ⟨rfl, rfl, rfl, rfl⟩

/-- C2: set-after-get is the identity for both lenses: whenever
`LensFirst.get p` returns `some x`, `LensFirst.set x p = p`, and the
analogous equation holds for `LensSecond`. -/
theorem claim_C2 {A : Type u} {B : Type v} (p : A × B) (x : A) (y : B) :
    ((LensFirst A B).get p = some x → (LensFirst A B).set x p = p) ∧
    ((LensSecond A B).get p = some y → (LensSecond A B).set y p = p) := by
  obtain ⟨a, b⟩ := p
  constructor
  · intro h
    simp only [LensFirst, Option.some.injEq] at h
    subst h
    rfl
  · intro h
    simp only [LensSecond, Option.some.injEq] at h
    subst h
    rfl

/-- Witness for C2 at the concrete pair `(1, 2) : Nat × Nat`. -/
theorem claim_C2_witness :
    (LensFirst Nat Nat).set 1 (1, 2) = (1, 2) ∧
    (LensSecond Nat Nat).set 2 (1, 2) = (1, 2) :=
  ⟨(claim_C2 (1, 2) 1 2).1 rfl, (claim_C2 (1, 2) 1 2).2 rfl⟩

/-- C3: `flip f b a = f a b` for all `a, b`, and flip is an involution:
`flip (flip f) a b = f a b`. -/
theorem claim_C3 {A : Type u} {B : Type v} {C : Type w}
    (f : A → B → C) (a : A) (b : B) :
    function.flip f b a = f a b ∧
    function.flip (function.flip f) a b = f a b :=
  ⟨rfl, rfl⟩

/-- C4: `map_first f1 (a, b) = (f1 a, b)` and `map_second g1 (a, b) = (a, g1 b)`;
moreover `map_first f ∘ map_first g = map_first (f ∘ g)` pointwise, and
symmetrically for `map_second`. -/
theorem claim_C4 {A : Type u} {B : Type v} {C : Type w} {D E : Type u}
    (f1 : A → C) (g1 : B → C) (a : A) (b : B)
    (g : A → D) (f : D → E) (g2 : B → D) (f2 : D → E) (p : A × B) :
    map_first f1 (a, b) = (f1 a, b) ∧
    map_second g1 (a, b) = (a, g1 b) ∧
    map_first f (map_first g p) = map_first (f ∘ g) p ∧
    map_second f2 (map_second g2 p) = map_second (f2 ∘ g2) p := by
  obtain ⟨x, y⟩ := p
  exact ⟨rfl, rfl, rfl, rfl⟩

/-- C5: `apply_first a f b = f a b` and `apply_second b f a = f a b`; repeated
calls of the returned callable use the same fixed captured value each time. -/
theorem claim_C5 {A : Type u} {B : Type v} {C : Type w}
    (f : A → B → C) (a : A) (b b2 : B) (a2 : A) :
    apply_first a f b = f a b ∧
    apply_first a f b2 = f a b2 ∧
    apply_second b f a = f a b ∧
    apply_second b f a2 = f a2 b :=
  ⟨rfl, rfl, rfl, rfl⟩

/-- C6: `always a () = a`, and every invocation of the returned zero-argument
callable yields an equal value (no drift across calls). -/
theorem claim_C6 {A : Type u} (a : A) :
    always a () = a ∧ ∀ u1 u2 : Unit, always a u1 = always a u2 :=
  ⟨rfl, fun _ _ => rfl⟩

/-- C7: `duplicate a = (a, a)`: the copy in the first slot equals the
original value `a` kept in the second slot (`clone` produces an
independently owned equal copy in the value semantics). -/
theorem claim_C7 {A : Type u} (a : A) :
    duplicate a = (a, a) ∧ first (duplicate a) = second (duplicate a) :=
  ⟨rfl, rfl⟩

/-- C8: `spread f (a, b) = f a b`, and the projections satisfy
`first (a, b) = a` and `second (a, b) = b`. -/
theorem claim_C8 {A : Type u} {B : Type v} {C : Type w}
    (f : A → B → C) (a : A) (b : B) :
    spread f (a, b) = f a b ∧ first (a, b) = a ∧ second (a, b) = b :=
  ⟨rfl, rfl, rfl⟩

/-- C9: `first_arg f a b = f a` and `second_arg g a b = g b`, and the result
does not depend on the discarded argument. -/
theorem claim_C9 {A : Type u} {B : Type v} {C : Type w}
    (f : A → C) (g : B → C) (a a2 : A) (b b2 : B) :
    first_arg f a b = f a ∧
    second_arg g a b = g b ∧
    first_arg f a b2 = first_arg f a b ∧
    second_arg g a2 b = second_arg g a b :=
  ⟨rfl, rfl, rfl, rfl⟩

/-- C10: `map_first` and `map_second` commute, and both composites send
`(a, b)` to `(f a, g b)`. -/
theorem claim_C10 {A : Type u} {B : Type v} {C : Type w} {D : Type u}
    (f : A → C) (g : B → D) (a : A) (b : B) :
    map_first f (map_second g (a, b)) = map_second g (map_first f (a, b)) ∧
    map_first f (map_second g (a, b)) = (f a, g b) :=
  ⟨rfl, rfl⟩
